import Mathlib

/-!
# `Xdevice/hip/tools.hpp`: the ROCm SMI handle and the device-side helpers

A shallow embedding of
`cscs-checks/microbenchmarks/gpu/memory_bandwidth/src/Xdevice/hip/tools.hpp`.

* The two static data members of `class Smi` and the calls the code makes to
  libraries (`rsmi_*`, `numa_run_on_node`, `std::cerr`, `exit`) live in a
  `World`: the statics as fields, the calls as a trace, oldest call first.
* What a library call answers is not decided by this file; it is taken as a
  parameter (`Rsmi`) of the operation that makes the call.
* `exit(1)` inside `rsmiCheck` ends the process: an operation returns
  `Except.error w` with the world at the moment of the exit, and
  `Except.ok` when it returns to its caller.
* `unsigned int` / `uint32_t` / `uint64_t` values are naturals reduced
  `% 2^32` / `% 2^64` where they are stored or converted.
* `int` values are integers in `[-2^31, 2^31)`.  `toInt32` brings a value into
  that range modulo `2^32`: it is the conversion of a `uint32_t` to `int`, and
  it is applied to `activeSmiInstances ± 1`, which is what the generated code
  (a 32-bit add) leaves in the static when the count passes `INT_MAX`; ISO
  C++ leaves that overflow undefined.
-/

namespace HipTools

/-! ## Library interface -/

/-- Status returned by the `rsmi_*` functions (`rocm_smi.h` is not part of the
sources).  The code only ever compares a status with `RSMI_STATUS_SUCCESS`. -/
inductive rsmi_status_t
  | RSMI_STATUS_SUCCESS
  | RSMI_STATUS_OTHER (code : Nat)
  deriving DecidableEq, Repr

/-- Text written to `std::cerr`. -/
inductive Diagnostic
  /-- The line `"Call to the rsmi API failed!"`. -/
  | rsmiApiFailed
  /-- The line `"Requested device ID is out of range from the existing devices."`. -/
  | idOutOfRange
  deriving DecidableEq, Repr

/-- One observable call made by the code, with its argument.
`numa_run_on_node` is `int numa_run_on_node(int)`: the argument recorded is the
`int` the callee receives.  `rsmi_topo_numa_affinity_get` is only called with
`id ≥ 0`, where the `int` written at the call site and the `uint32_t` received
are the same number. -/
inductive Call
  | rsmi_init (flags : Nat)
  | rsmi_num_monitor_devices
  | rsmi_topo_numa_affinity_get (dv_ind : Int)
  | rsmi_shut_down
  | numa_run_on_node (node : Int)
  | cerr (line : Diagnostic)
  | exit (status : Int)
  deriving DecidableEq, Repr

/-- Answers of the ROCm SMI library at the moment an operation runs.  For the
two functions with an out-parameter the second component is the word the call
leaves in the variable whose address was passed. -/
structure Rsmi where
  rsmi_init : Nat → rsmi_status_t
  rsmi_num_monitor_devices : rsmi_status_t × Nat
  rsmi_topo_numa_affinity_get : Int → rsmi_status_t × Nat
  rsmi_shut_down : rsmi_status_t

/-! ## Process state -/

/-- The process-wide state: the static members of `Smi` and the calls made
so far (oldest first). -/
structure World where
  rsmiIsActive : Int
  activeSmiInstances : Int
  calls : List Call
  deriving DecidableEq, Repr

/-- The state at program start: `int Smi::rsmiIsActive = 0;`,
`int Smi::activeSmiInstances = 0;`, and nothing called yet. -/
def World.initial : World :=
  { rsmiIsActive := 0, activeSmiInstances := 0, calls := [] }

/-- Record a call at the end of the trace. -/
def World.emit (w : World) (c : Call) : World :=
  { w with calls := w.calls ++ [c] }

/-- Conversion of an `int` to `unsigned int` (value modulo `2^32`). -/
def toUInt32 (i : Int) : Nat := (i % 2 ^ 32).toNat

/-- The 32-bit two's complement `int` congruent to `x` modulo `2^32`
(`2147483648 = 2^31`, `4294967296 = 2^32`). -/
def toInt32 (x : Int) : Int := (x + 2147483648) % 4294967296 - 2147483648

/-- The non-static part of a `Smi` object. -/
structure Smi where
  numberOfDevices : Nat
  deriving DecidableEq, Repr

/-! ## The functions of `tools.hpp` -/

/-- The function `rsmiCheck`: with `DEBUG` defined, a status other than
`RSMI_STATUS_SUCCESS` prints a line and calls `exit(1)`; without `DEBUG`
the body is empty. -/
def rsmiCheck (DEBUG : Bool) (err : rsmi_status_t) (w : World) : Except World World :=
  if DEBUG then
    if err ≠ rsmi_status_t.RSMI_STATUS_SUCCESS then
      Except.error ((w.emit (Call.cerr Diagnostic.rsmiApiFailed)).emit (Call.exit 1))
    else
      Except.ok w
  else
    Except.ok w

/-- The constructor `Smi::Smi()`.  `storage` is the word found in the bytes of
`numberOfDevices` when the constructor starts: the member has no initialiser
and is written only by `rsmi_num_monitor_devices`. -/
def Smi.ctor (DEBUG : Bool) (rsmi : Rsmi) (storage : Nat) (w : World) :
    Except World (Smi × World) :=
  if w.rsmiIsActive = 0 then
    match rsmiCheck DEBUG (rsmi.rsmi_init 0) (w.emit (Call.rsmi_init 0)) with
    | Except.error e => Except.error e
    | Except.ok w1 =>
      let w2 : World := { w1 with rsmiIsActive := 1 }
      match rsmiCheck DEBUG rsmi.rsmi_num_monitor_devices.1
          (w2.emit Call.rsmi_num_monitor_devices) with
      | Except.error e => Except.error e
      | Except.ok w3 =>
        Except.ok ({ numberOfDevices := rsmi.rsmi_num_monitor_devices.2 % 2 ^ 32 },
          { w3 with activeSmiInstances := toInt32 (w3.activeSmiInstances + 1) })
  else
    Except.ok ({ numberOfDevices := storage % 2 ^ 32 },
      { w with activeSmiInstances := toInt32 (w.activeSmiInstances + 1) })

/-- The member function `Smi::setCpuAffinity(int id)`.  In `id >= numberOfDevices` the `int` is
converted to `unsigned int` before the comparison.  `numa_node` is a
`uint32_t`; passing it to `numa_run_on_node(int)` converts it to `int`. -/
def Smi.setCpuAffinity (DEBUG : Bool) (rsmi : Rsmi) (this : Smi) (id : Int) (w : World) :
    Except World World :=
  if id < 0 ∨ this.numberOfDevices ≤ toUInt32 id then
    Except.ok (w.emit (Call.cerr Diagnostic.idOutOfRange))
  else
    match rsmiCheck DEBUG (rsmi.rsmi_topo_numa_affinity_get id).1
        (w.emit (Call.rsmi_topo_numa_affinity_get id)) with
    | Except.error e => Except.error e
    | Except.ok w1 =>
      let numa_node : Nat := (rsmi.rsmi_topo_numa_affinity_get id).2 % 2 ^ 32
      Except.ok (w1.emit (Call.numa_run_on_node (toInt32 numa_node)))

/-- The destructor `Smi::~Smi()`: the count is decremented (32-bit `int`
arithmetic), then the subsystem is shut down when the flag `rsmiIsActive` is
set. -/
def Smi.dtor (DEBUG : Bool) (rsmi : Rsmi) (_this : Smi) (w : World) : Except World World :=
  let w0 : World := { w with activeSmiInstances := toInt32 (w.activeSmiInstances - 1) }
  if w0.rsmiIsActive ≠ 0 then
    match rsmiCheck DEBUG rsmi.rsmi_shut_down (w0.emit Call.rsmi_shut_down) with
    | Except.error e => Except.error e
    | Except.ok w1 => Except.ok { w1 with rsmiIsActive := 0 }
  else
    Except.ok w0

/-- What device code can observe of the hardware: the 64-bit counter that
`s_memtime` reads. -/
structure DeviceContext where
  s_memtime : Nat
  deriving DecidableEq, Repr

/-- The device function `__ownClock()`: `uint64_t x` receives the counter, `(uint32_t)x` is
returned. -/
def __ownClock (ctx : DeviceContext) : Nat :=
  let x : Nat := ctx.s_memtime % 2 ^ 64
  x % 2 ^ 32

/-- The device function `__smId()`: `return -1;`. -/
def __smId (_ctx : DeviceContext) : Int := -1

/-! ## Programs: sequences of constructions and destructions -/

/-- A process together with its live `Smi` objects, in construction order. -/
structure Proc where
  world : World
  live : List Smi
  deriving DecidableEq, Repr

/-- Nothing constructed yet. -/
def Proc.initial : Proc := { world := World.initial, live := [] }

/-- One step of a program: construct a new handle, or destroy the `i`-th of
the live ones. -/
inductive Op
  | construct (rsmi : Rsmi) (storage : Nat)
  | destroy (i : Nat) (rsmi : Rsmi)

/-- Where a program stands. -/
inductive Run
  /-- every operation so far returned -/
  | running (p : Proc)
  /-- the process ended in `exit(1)` inside `rsmiCheck`; the world at that moment -/
  | exited (w : World)
  /-- the next operation destroys a handle that is not live; the state before it -/
  | invalid (p : Proc)
  deriving DecidableEq, Repr

/-- The world of a program state. -/
def Run.world : Run → World
  | Run.running p => p.world
  | Run.exited w => w
  | Run.invalid p => p.world

/-- Execute one operation. -/
def step (DEBUG : Bool) (p : Proc) : Op → Run
  | Op.construct rsmi storage =>
    match Smi.ctor DEBUG rsmi storage p.world with
    | Except.ok (h, w) => Run.running { world := w, live := p.live ++ [h] }
    | Except.error w => Run.exited w
  | Op.destroy i rsmi =>
    match p.live[i]? with
    | some h =>
      match Smi.dtor DEBUG rsmi h p.world with
      | Except.ok w => Run.running { world := w, live := p.live.eraseIdx i }
      | Except.error w => Run.exited w
    | none => Run.invalid p

/-- Execute a list of operations, stopping at an `exit` or at an invalid
destruction. -/
def run (DEBUG : Bool) : Proc → List Op → Run
  | p, [] => Run.running p
  | p, op :: ops =>
    match step DEBUG p op with
    | Run.running q => run DEBUG q ops
    | r => r

/-! ## Vocabulary for the statements -/

/-- Is the call `rsmi_init`? -/
def Call.isInit : Call → Bool
  | Call.rsmi_init _ => true
  | _ => false

/-- Is the call `rsmi_shut_down`? -/
def Call.isShutDown : Call → Bool
  | Call.rsmi_shut_down => true
  | _ => false

/-- Number of `rsmi_init` calls in a trace. -/
def inits (cs : List Call) : Nat := (cs.filter Call.isInit).length

/-- Number of `rsmi_shut_down` calls in a trace. -/
def shutDowns (cs : List Call) : Nat := (cs.filter Call.isShutDown).length

/-- The `rsmi_init` / `rsmi_shut_down` calls of a trace, in order. -/
def lifecycle (cs : List Call) : List Call :=
  cs.filter (fun c => c.isInit || c.isShutDown)

/-- A list of lifecycle calls alternates when, the subsystem being active or
not as the flag says, each call is the one that flips it: `rsmi_init` when
inactive, `rsmi_shut_down` when active. -/
def alternates : Bool → List Call → Bool
  | _, [] => true
  | false, c :: cs => c.isInit && alternates true cs
  | true, c :: cs => c.isShutDown && alternates false cs

/-- Is the operation a construction? -/
def Op.isConstruct : Op → Bool
  | Op.construct _ _ => true
  | Op.destroy _ _ => false

/-- Every status the operation may hand to `rsmiCheck` is
`RSMI_STATUS_SUCCESS`. -/
def Op.checksPass : Op → Prop
  | Op.construct rsmi _ =>
    rsmi.rsmi_init 0 = rsmi_status_t.RSMI_STATUS_SUCCESS ∧
      rsmi.rsmi_num_monitor_devices.1 = rsmi_status_t.RSMI_STATUS_SUCCESS
  | Op.destroy _ rsmi => rsmi.rsmi_shut_down = rsmi_status_t.RSMI_STATUS_SUCCESS

/-- With `n` handles live, the list consists of destructions only and each one
destroys a handle that is live when its turn comes. -/
def destroysLive : Nat → List Op → Prop
  | _, [] => True
  | n, Op.destroy i _ :: ops => i < n ∧ destroysLive (n - 1) ops
  | _, Op.construct _ _ :: _ => False

instance Op.decidableChecksPass (op : Op) : Decidable op.checksPass :=
  match op with
  | Op.construct rsmi _ =>
    inferInstanceAs (Decidable
      (rsmi.rsmi_init 0 = rsmi_status_t.RSMI_STATUS_SUCCESS ∧
        rsmi.rsmi_num_monitor_devices.1 = rsmi_status_t.RSMI_STATUS_SUCCESS))
  | Op.destroy _ rsmi =>
    inferInstanceAs (Decidable (rsmi.rsmi_shut_down = rsmi_status_t.RSMI_STATUS_SUCCESS))

instance decidableDestroysLive : (n : Nat) → (ops : List Op) → Decidable (destroysLive n ops)
  | _, [] => isTrue trivial
  | n, Op.destroy i _ :: ops =>
    match Nat.decLt i n, decidableDestroysLive (n - 1) ops with
    | isTrue h1, isTrue h2 => isTrue ⟨h1, h2⟩
    | isFalse h1, _ => isFalse (fun h => h1 h.1)
    | _, isFalse h2 => isFalse (fun h => h2 h.2)
  | _, Op.construct _ _ :: _ => isFalse (fun h => h)

/-- A library whose calls all succeed, reporting `count` devices and NUMA
node `dv_ind % 2` for device `dv_ind`. -/
def Rsmi.healthy (count : Nat) : Rsmi :=
  { rsmi_init := fun _ => rsmi_status_t.RSMI_STATUS_SUCCESS
    rsmi_num_monitor_devices := (rsmi_status_t.RSMI_STATUS_SUCCESS, count)
    rsmi_topo_numa_affinity_get := fun i => (rsmi_status_t.RSMI_STATUS_SUCCESS, (i % 2).toNat)
    rsmi_shut_down := rsmi_status_t.RSMI_STATUS_SUCCESS }

/-- A library whose calls all succeed and whose topology query leaves the
word `4294967295` (all bits set) in `numa_node` for every device. -/
def Rsmi.allBits : Rsmi :=
  { rsmi_init := fun _ => rsmi_status_t.RSMI_STATUS_SUCCESS
    rsmi_num_monitor_devices := (rsmi_status_t.RSMI_STATUS_SUCCESS, 4)
    rsmi_topo_numa_affinity_get := fun _ => (rsmi_status_t.RSMI_STATUS_SUCCESS, 4294967295)
    rsmi_shut_down := rsmi_status_t.RSMI_STATUS_SUCCESS }

/-- A library whose calls all fail. -/
def Rsmi.broken : Rsmi :=
  { rsmi_init := fun _ => rsmi_status_t.RSMI_STATUS_OTHER 1
    rsmi_num_monitor_devices := (rsmi_status_t.RSMI_STATUS_OTHER 1, 0)
    rsmi_topo_numa_affinity_get := fun _ => (rsmi_status_t.RSMI_STATUS_OTHER 1, 0)
    rsmi_shut_down := rsmi_status_t.RSMI_STATUS_OTHER 1 }

/-- Follow the subsystem through a trace: from state `b` (active or not),
`rsmi_init` is legal only when inactive and activates, `rsmi_shut_down` is
legal only when active and deactivates, every other call leaves the state.
`none` as soon as an illegal lifecycle call occurs. -/
def track : Bool → List Call → Option Bool
  | b, [] => some b
  | b, c :: cs =>
    if c.isInit then (if b then none else track true cs)
    else if c.isShutDown then (if b then track false cs else none)
    else track b cs

/-- Two constructions with a library reporting 4 devices; the bytes of the
second handle hold the word 7 when its constructor starts. -/
def constructAB : List Op :=
  [Op.construct (Rsmi.healthy 4) 0, Op.construct (Rsmi.healthy 4) 7]

/-- Destroy the second of two handles, then the remaining one. -/
def destroyBA : List Op :=
  [Op.destroy 1 (Rsmi.healthy 4), Op.destroy 0 (Rsmi.healthy 4)]

/-- The state after `constructAB` (see `run_constructAB`). -/
def procAB : Proc :=
  { world :=
      { rsmiIsActive := 1
        activeSmiInstances := 2
        calls := [Call.rsmi_init 0, Call.rsmi_num_monitor_devices] }
    live := [{ numberOfDevices := 4 }, { numberOfDevices := 7 }] }

/-- The checks of an operation cannot end the process: `DEBUG` is off or the
statuses are all `RSMI_STATUS_SUCCESS`. -/
def Op.safe (DEBUG : Bool) (op : Op) : Prop := DEBUG = false ∨ op.checksPass

instance Op.decidableSafe (DEBUG : Bool) (op : Op) : Decidable (op.safe DEBUG) :=
  inferInstanceAs (Decidable (DEBUG = false ∨ op.checksPass))

/-- What holds of every process whose operations all returned: the flag
`rsmiIsActive` tells whether the subsystem is active according to the calls
made, and `activeSmiInstances` is the number of live handles as a 32-bit
`int`. -/
def Inv (p : Proc) : Prop :=
  track false p.world.calls = some (decide (p.world.rsmiIsActive ≠ 0)) ∧
    p.world.activeSmiInstances = toInt32 (p.live.length : Int)

instance decidableInv (p : Proc) : Decidable (Inv p) :=
  inferInstanceAs (Decidable
    (track false p.world.calls = some (decide (p.world.rsmiIsActive ≠ 0)) ∧
      p.world.activeSmiInstances = toInt32 (p.live.length : Int)))

/-! ## Lemmas on traces -/

theorem track_append (b : Bool) (xs ys : List Call) :
    track b (xs ++ ys) = (track b xs).bind (fun b1 => track b1 ys) := by
  induction xs generalizing b with
  | nil => simp [track]
  | cons c cs ih =>
    simp only [List.cons_append, track]
    split_ifs <;> simp [ih]

theorem alternates_of_track (cs : List Call) :
    ∀ b b1 : Bool, track b cs = some b1 → alternates b (lifecycle cs) = true := by
  induction cs with
  | nil => intro b b1 _; cases b <;> simp [lifecycle, alternates]
  | cons c cs ih =>
    intro b b1 h
    simp only [track] at h
    by_cases hi : c.isInit = true
    · cases b
      · simp only [hi, if_true] at h
        have := ih true b1 (by simpa using h)
        simp only [lifecycle] at this
        simp [lifecycle, List.filter_cons, hi, alternates, this]
      · simp [hi] at h
    · by_cases hs : c.isShutDown = true
      · cases b
        · simp [hi, hs] at h
        · simp only [hi, hs, if_true] at h
          have := ih false b1 (by simpa using h)
          simp only [lifecycle] at this
          simp [lifecycle, List.filter_cons, hs, alternates, this]
      · simp only [hi, hs] at h
        have := ih b b1 (by simpa using h)
        simp only [lifecycle] at this
        simp [lifecycle, List.filter_cons, hi, hs, this]

theorem balance_of_track (cs : List Call) :
    ∀ b b1 : Bool, track b cs = some b1 →
      inits cs + (if b then 1 else 0) = shutDowns cs + (if b1 then 1 else 0) := by
  induction cs with
  | nil => intro b b1 h; simp [track] at h; subst h; simp [inits, shutDowns]
  | cons c cs ih =>
    intro b b1 h
    simp only [track] at h
    have hex : ¬ (c.isInit = true ∧ c.isShutDown = true) := by
      cases c <;> simp [Call.isInit, Call.isShutDown]
    by_cases hi : c.isInit = true
    · have hs : c.isShutDown = false := by
        cases hc : c.isShutDown
        · rfl
        · exact absurd ⟨hi, hc⟩ hex
      cases b
      · simp only [hi, if_true] at h
        have := ih true b1 (by simpa using h)
        simp only [inits, shutDowns] at this
        simp [inits, shutDowns, List.filter_cons, hi, hs]
        simp at this
        omega
      · simp [hi] at h
    · by_cases hs : c.isShutDown = true
      · cases b
        · simp [hi, hs] at h
        · simp only [hi, hs, if_true] at h
          have := ih false b1 (by simpa using h)
          simp only [inits, shutDowns] at this
          simp [inits, shutDowns, List.filter_cons, hi, hs]
          simp at this
          omega
      · simp only [hi, hs] at h
        have := ih b b1 (by simpa using h)
        simp only [inits, shutDowns] at this
        simp [inits, shutDowns, List.filter_cons, hi, hs]
        exact this

theorem track_take (b : Bool) (cs : List Call) (k : Nat)
    (h : (track b cs).isSome = true) : (track b (cs.take k)).isSome = true := by
  have hsplit : track b (cs.take k ++ cs.drop k) = track b cs := by
    rw [List.take_append_drop]
  rw [track_append] at hsplit
  cases ht : track b (cs.take k) with
  | none => rw [ht] at hsplit; simp at hsplit; rw [← hsplit] at h; simp at h
  | some b1 => simp

/-! ## The constructor and the destructor, case by case -/

theorem rsmiCheck_ok (DEBUG : Bool) (err : rsmi_status_t) (w : World)
    (h : DEBUG = false ∨ err = rsmi_status_t.RSMI_STATUS_SUCCESS) :
    rsmiCheck DEBUG err w = Except.ok w := by
  rcases h with h | h <;> simp [rsmiCheck, h]

theorem rsmiCheck_exit (err : rsmi_status_t) (w : World)
    (h : err ≠ rsmi_status_t.RSMI_STATUS_SUCCESS) :
    rsmiCheck true err w =
      Except.error { w with calls := w.calls ++
        [Call.cerr Diagnostic.rsmiApiFailed, Call.exit 1] } := by
  simp [rsmiCheck, h, World.emit]

theorem ctor_active (DEBUG : Bool) (rsmi : Rsmi) (storage : Nat) (w : World)
    (h : w.rsmiIsActive ≠ 0) :
    Smi.ctor DEBUG rsmi storage w =
      Except.ok ({ numberOfDevices := storage % 2 ^ 32 },
        { w with activeSmiInstances := toInt32 (w.activeSmiInstances + 1) }) := by
  simp [Smi.ctor, h]

theorem ctor_inactive (DEBUG : Bool) (rsmi : Rsmi) (storage : Nat) (w : World)
    (h : w.rsmiIsActive = 0)
    (hs : DEBUG = false ∨ (rsmi.rsmi_init 0 = rsmi_status_t.RSMI_STATUS_SUCCESS ∧
      rsmi.rsmi_num_monitor_devices.1 = rsmi_status_t.RSMI_STATUS_SUCCESS)) :
    Smi.ctor DEBUG rsmi storage w =
      Except.ok ({ numberOfDevices := rsmi.rsmi_num_monitor_devices.2 % 2 ^ 32 },
        { rsmiIsActive := 1
          activeSmiInstances := toInt32 (w.activeSmiInstances + 1)
          calls := w.calls ++ [Call.rsmi_init 0, Call.rsmi_num_monitor_devices] }) := by
  have h1 : DEBUG = false ∨ rsmi.rsmi_init 0 = rsmi_status_t.RSMI_STATUS_SUCCESS := by tauto
  have h2 : DEBUG = false ∨
      rsmi.rsmi_num_monitor_devices.1 = rsmi_status_t.RSMI_STATUS_SUCCESS := by tauto
  simp [Smi.ctor, h, rsmiCheck_ok _ _ _ h1, rsmiCheck_ok _ _ _ h2, World.emit]

theorem ctor_exit_init (rsmi : Rsmi) (storage : Nat) (w : World)
    (h : w.rsmiIsActive = 0)
    (hs : rsmi.rsmi_init 0 ≠ rsmi_status_t.RSMI_STATUS_SUCCESS) :
    Smi.ctor true rsmi storage w =
      Except.error { w with calls := w.calls ++
        [Call.rsmi_init 0, Call.cerr Diagnostic.rsmiApiFailed, Call.exit 1] } := by
  simp [Smi.ctor, h, rsmiCheck_exit _ _ hs, World.emit]

theorem ctor_exit_num (rsmi : Rsmi) (storage : Nat) (w : World)
    (h : w.rsmiIsActive = 0)
    (hi : rsmi.rsmi_init 0 = rsmi_status_t.RSMI_STATUS_SUCCESS)
    (hs : rsmi.rsmi_num_monitor_devices.1 ≠ rsmi_status_t.RSMI_STATUS_SUCCESS) :
    Smi.ctor true rsmi storage w =
      Except.error
        { rsmiIsActive := 1
          activeSmiInstances := w.activeSmiInstances
          calls := w.calls ++ [Call.rsmi_init 0, Call.rsmi_num_monitor_devices,
            Call.cerr Diagnostic.rsmiApiFailed, Call.exit 1] } := by
  simp [Smi.ctor, h, rsmiCheck_ok true _ _ (Or.inr hi), rsmiCheck_exit _ _ hs, World.emit]

theorem dtor_inactive (DEBUG : Bool) (rsmi : Rsmi) (this : Smi) (w : World)
    (h : w.rsmiIsActive = 0) :
    Smi.dtor DEBUG rsmi this w =
      Except.ok { w with activeSmiInstances := toInt32 (w.activeSmiInstances - 1) } := by
  simp [Smi.dtor, h]

theorem dtor_active (DEBUG : Bool) (rsmi : Rsmi) (this : Smi) (w : World)
    (h : w.rsmiIsActive ≠ 0)
    (hs : DEBUG = false ∨ rsmi.rsmi_shut_down = rsmi_status_t.RSMI_STATUS_SUCCESS) :
    Smi.dtor DEBUG rsmi this w =
      Except.ok
        { rsmiIsActive := 0
          activeSmiInstances := toInt32 (w.activeSmiInstances - 1)
          calls := w.calls ++ [Call.rsmi_shut_down] } := by
  simp [Smi.dtor, h, rsmiCheck_ok _ _ _ hs, World.emit]

theorem dtor_exit (rsmi : Rsmi) (this : Smi) (w : World)
    (h : w.rsmiIsActive ≠ 0)
    (hs : rsmi.rsmi_shut_down ≠ rsmi_status_t.RSMI_STATUS_SUCCESS) :
    Smi.dtor true rsmi this w =
      Except.error
        { rsmiIsActive := w.rsmiIsActive
          activeSmiInstances := toInt32 (w.activeSmiInstances - 1)
          calls := w.calls ++ [Call.rsmi_shut_down,
            Call.cerr Diagnostic.rsmiApiFailed, Call.exit 1] } := by
  simp [Smi.dtor, h, rsmiCheck_exit _ _ hs, World.emit]

/-! ## Invariants of programs -/

theorem inv_initial : Inv Proc.initial := by
  simp [Inv, Proc.initial, World.initial, track, toInt32]

theorem step_construct_cases (DEBUG : Bool) (p : Proc) (rsmi : Rsmi) (storage : Nat) :
    (p.world.rsmiIsActive ≠ 0 ∧
      step DEBUG p (Op.construct rsmi storage) = Run.running
        { world := { p.world with activeSmiInstances := toInt32 (p.world.activeSmiInstances + 1) }
          live := p.live ++ [{ numberOfDevices := storage % 2 ^ 32 }] }) ∨
    (p.world.rsmiIsActive = 0 ∧
      step DEBUG p (Op.construct rsmi storage) = Run.running
        { world :=
            { rsmiIsActive := 1
              activeSmiInstances := toInt32 (p.world.activeSmiInstances + 1)
              calls := p.world.calls ++ [Call.rsmi_init 0, Call.rsmi_num_monitor_devices] }
          live := p.live ++
            [{ numberOfDevices := rsmi.rsmi_num_monitor_devices.2 % 2 ^ 32 }] }) ∨
    (p.world.rsmiIsActive = 0 ∧ DEBUG = true ∧ ¬ (Op.construct rsmi storage).checksPass ∧
      step DEBUG p (Op.construct rsmi storage) = Run.exited
        { p.world with calls := p.world.calls ++
            [Call.rsmi_init 0, Call.cerr Diagnostic.rsmiApiFailed, Call.exit 1] }) ∨
    (p.world.rsmiIsActive = 0 ∧ DEBUG = true ∧ ¬ (Op.construct rsmi storage).checksPass ∧
      step DEBUG p (Op.construct rsmi storage) = Run.exited
        { rsmiIsActive := 1
          activeSmiInstances := p.world.activeSmiInstances
          calls := p.world.calls ++ [Call.rsmi_init 0, Call.rsmi_num_monitor_devices,
            Call.cerr Diagnostic.rsmiApiFailed, Call.exit 1] }) := by
  by_cases ha : p.world.rsmiIsActive = 0
  · cases DEBUG with
    | false =>
      right; left
      refine ⟨ha, ?_⟩
      simp [step, ctor_inactive false rsmi storage p.world ha (Or.inl rfl)]
    | true =>
      by_cases hi : rsmi.rsmi_init 0 = rsmi_status_t.RSMI_STATUS_SUCCESS
      · by_cases hn : rsmi.rsmi_num_monitor_devices.1 = rsmi_status_t.RSMI_STATUS_SUCCESS
        · right; left
          refine ⟨ha, ?_⟩
          simp [step, ctor_inactive true rsmi storage p.world ha (Or.inr ⟨hi, hn⟩)]
        · right; right; right
          refine ⟨ha, rfl, ?_, ?_⟩
          · simp [Op.checksPass, hn]
          · simp [step, ctor_exit_num rsmi storage p.world ha hi hn]
      · right; right; left
        refine ⟨ha, rfl, ?_, ?_⟩
        · simp [Op.checksPass, hi]
        · simp [step, ctor_exit_init rsmi storage p.world ha hi]
  · left
    refine ⟨ha, ?_⟩
    simp [step, ctor_active DEBUG rsmi storage p.world ha]

theorem step_destroy_cases (DEBUG : Bool) (p : Proc) (i : Nat) (rsmi : Rsmi) :
    (p.live.length ≤ i ∧ step DEBUG p (Op.destroy i rsmi) = Run.invalid p) ∨
    (i < p.live.length ∧ p.world.rsmiIsActive = 0 ∧
      step DEBUG p (Op.destroy i rsmi) = Run.running
        { world := { p.world with activeSmiInstances := toInt32 (p.world.activeSmiInstances - 1) }
          live := p.live.eraseIdx i }) ∨
    (i < p.live.length ∧ p.world.rsmiIsActive ≠ 0 ∧
      step DEBUG p (Op.destroy i rsmi) = Run.running
        { world :=
            { rsmiIsActive := 0
              activeSmiInstances := toInt32 (p.world.activeSmiInstances - 1)
              calls := p.world.calls ++ [Call.rsmi_shut_down] }
          live := p.live.eraseIdx i }) ∨
    (i < p.live.length ∧ p.world.rsmiIsActive ≠ 0 ∧ DEBUG = true ∧
      ¬ (Op.destroy i rsmi).checksPass ∧
      step DEBUG p (Op.destroy i rsmi) = Run.exited
        { rsmiIsActive := p.world.rsmiIsActive
          activeSmiInstances := toInt32 (p.world.activeSmiInstances - 1)
          calls := p.world.calls ++ [Call.rsmi_shut_down,
            Call.cerr Diagnostic.rsmiApiFailed, Call.exit 1] }) := by
  by_cases hi : i < p.live.length
  · obtain ⟨h, hget⟩ : ∃ h, p.live[i]? = some h :=
      ⟨p.live[i], List.getElem?_eq_getElem hi⟩
    by_cases ha : p.world.rsmiIsActive = 0
    · right; left
      refine ⟨hi, ha, ?_⟩
      simp [step, hget, dtor_inactive DEBUG rsmi h p.world ha]
    · cases DEBUG with
      | false =>
        right; right; left
        refine ⟨hi, ha, ?_⟩
        simp [step, hget, dtor_active false rsmi h p.world ha (Or.inl rfl)]
      | true =>
        by_cases hs : rsmi.rsmi_shut_down = rsmi_status_t.RSMI_STATUS_SUCCESS
        · right; right; left
          refine ⟨hi, ha, ?_⟩
          simp [step, hget, dtor_active true rsmi h p.world ha (Or.inr hs)]
        · right; right; right
          refine ⟨hi, ha, rfl, ?_, ?_⟩
          · simp [Op.checksPass, hs]
          · simp [step, hget, dtor_exit rsmi h p.world ha hs]
  · left
    have hle : p.live.length ≤ i := Nat.le_of_not_lt hi
    refine ⟨hle, ?_⟩
    have hget : p.live[i]? = none := List.getElem?_eq_none hle
    simp [step, hget]

theorem step_running_inv (DEBUG : Bool) (p q : Proc) (op : Op) (hp : Inv p)
    (h : step DEBUG p op = Run.running q) : Inv q := by
  obtain ⟨htr, hcnt⟩ := hp
  cases op with
  | construct rsmi storage =>
    rcases step_construct_cases DEBUG p rsmi storage with
      ⟨ha, e⟩ | ⟨ha, e⟩ | ⟨_, _, _, e⟩ | ⟨_, _, _, e⟩
    · rw [e] at h; cases h
      refine ⟨?_, ?_⟩
      · simpa using htr
      · simp only [hcnt, List.length_append, List.length_cons, List.length_nil]
        unfold toInt32
        omega
    · rw [e] at h; cases h
      refine ⟨?_, ?_⟩
      · simp [track_append, htr, ha, track, Call.isInit, Call.isShutDown]
      · simp only [hcnt, List.length_append, List.length_cons, List.length_nil]
        unfold toInt32
        omega
    · rw [e] at h; cases h
    · rw [e] at h; cases h
  | destroy i rsmi =>
    rcases step_destroy_cases DEBUG p i rsmi with
      ⟨_, e⟩ | ⟨hi, ha, e⟩ | ⟨hi, ha, e⟩ | ⟨_, _, _, _, e⟩
    · rw [e] at h; cases h
    · rw [e] at h; cases h
      refine ⟨?_, ?_⟩
      · simpa using htr
      · simp only [hcnt, List.length_eraseIdx, hi, if_true]
        unfold toInt32
        omega
    · rw [e] at h; cases h
      refine ⟨?_, ?_⟩
      · simp [track_append, htr, ha, track, Call.isInit, Call.isShutDown]
      · simp only [hcnt, List.length_eraseIdx, hi, if_true]
        unfold toInt32
        omega
    · rw [e] at h; cases h

theorem step_exited_track (DEBUG : Bool) (p : Proc) (w : World) (op : Op) (hp : Inv p)
    (h : step DEBUG p op = Run.exited w) : (track false w.calls).isSome = true := by
  obtain ⟨htr, _⟩ := hp
  cases op with
  | construct rsmi storage =>
    rcases step_construct_cases DEBUG p rsmi storage with
      ⟨_, e⟩ | ⟨_, e⟩ | ⟨ha, _, _, e⟩ | ⟨ha, _, _, e⟩
    · rw [e] at h; cases h
    · rw [e] at h; cases h
    · rw [e] at h; cases h
      simp [track_append, htr, ha, track, Call.isInit, Call.isShutDown]
    · rw [e] at h; cases h
      simp [track_append, htr, ha, track, Call.isInit, Call.isShutDown]
  | destroy i rsmi =>
    rcases step_destroy_cases DEBUG p i rsmi with
      ⟨_, e⟩ | ⟨_, _, e⟩ | ⟨_, _, e⟩ | ⟨_, ha, _, _, e⟩
    · rw [e] at h; cases h
    · rw [e] at h; cases h
    · rw [e] at h; cases h
    · rw [e] at h; cases h
      simp [track_append, htr, ha, track, Call.isInit, Call.isShutDown]

theorem step_invalid_eq (DEBUG : Bool) (p q : Proc) (op : Op)
    (h : step DEBUG p op = Run.invalid q) : q = p := by
  cases op with
  | construct rsmi storage =>
    rcases step_construct_cases DEBUG p rsmi storage with
      ⟨_, e⟩ | ⟨_, e⟩ | ⟨_, _, _, e⟩ | ⟨_, _, _, e⟩ <;> (rw [e] at h; cases h)
  | destroy i rsmi =>
    rcases step_destroy_cases DEBUG p i rsmi with
      ⟨_, e⟩ | ⟨_, _, e⟩ | ⟨_, _, e⟩ | ⟨_, _, _, _, e⟩ <;> (rw [e] at h; cases h)
    rfl

theorem run_nil (DEBUG : Bool) (p : Proc) : run DEBUG p [] = Run.running p := rfl

theorem run_cons_running (DEBUG : Bool) (p q : Proc) (op : Op) (ops : List Op)
    (h : step DEBUG p op = Run.running q) : run DEBUG p (op :: ops) = run DEBUG q ops := by
  simp [run, h]

theorem run_cons_exited (DEBUG : Bool) (p : Proc) (w : World) (op : Op) (ops : List Op)
    (h : step DEBUG p op = Run.exited w) : run DEBUG p (op :: ops) = Run.exited w := by
  simp [run, h]

theorem run_cons_invalid (DEBUG : Bool) (p q : Proc) (op : Op) (ops : List Op)
    (h : step DEBUG p op = Run.invalid q) : run DEBUG p (op :: ops) = Run.invalid q := by
  simp [run, h]

/-- Every process reached by returning operations satisfies the invariant. -/
theorem run_running_inv (DEBUG : Bool) (ops : List Op) :
    ∀ p q : Proc, Inv p → run DEBUG p ops = Run.running q → Inv q := by
  induction ops with
  | nil => intro p q hp h; simp only [run_nil] at h; cases h; exact hp
  | cons op ops ih =>
    intro p q hp h
    cases hs : step DEBUG p op with
    | running r =>
      rw [run_cons_running DEBUG p r op ops hs] at h
      exact ih r q (step_running_inv DEBUG p r op hp hs) h
    | exited w => rw [run_cons_exited DEBUG p w op ops hs] at h; cases h
    | invalid r => rw [run_cons_invalid DEBUG p r op ops hs] at h; cases h

/-- Whatever a program does, exit included, its trace never contains an illegal
lifecycle call. -/
theorem run_track (DEBUG : Bool) (ops : List Op) :
    ∀ p : Proc, Inv p → (track false (run DEBUG p ops).world.calls).isSome = true := by
  induction ops with
  | nil => intro p hp; simp [run_nil, Run.world, hp.1]
  | cons op ops ih =>
    intro p hp
    cases hs : step DEBUG p op with
    | running r =>
      rw [run_cons_running DEBUG p r op ops hs]
      exact ih r (step_running_inv DEBUG p r op hp hs)
    | exited w =>
      rw [run_cons_exited DEBUG p w op ops hs]
      exact step_exited_track DEBUG p w op hp hs
    | invalid r =>
      rw [run_cons_invalid DEBUG p r op ops hs]
      have := step_invalid_eq DEBUG p r op hs
      subst this
      simp [Run.world, hp.1]

/-- In a trace without illegal lifecycle call, the `k`-th call, when it is a
lifecycle call, comes in the state that allows it. -/
theorem track_at (cs : List Call) (k : Nat) (c : Call)
    (h : (track false cs).isSome = true) (hc : cs[k]? = some c) :
    (c.isShutDown = true → inits (cs.take k) = shutDowns (cs.take k) + 1) ∧
      (c.isInit = true → inits (cs.take k) = shutDowns (cs.take k)) := by
  have h1 := track_take false cs (k + 1) h
  rw [List.take_succ, hc, track_append] at h1
  cases ht : track false (cs.take k) with
  | none => rw [ht] at h1; simp at h1
  | some b =>
    rw [ht] at h1
    have hb := balance_of_track (cs.take k) false b ht
    have hex : ¬ (c.isInit = true ∧ c.isShutDown = true) := by
      cases c <;> simp [Call.isInit, Call.isShutDown]
    constructor
    · intro hs
      have hi : c.isInit = false := by
        cases hci : c.isInit
        · rfl
        · exact absurd ⟨hci, hs⟩ hex
      cases b
      · simp [track, hi, hs] at h1
      · simpa using hb
    · intro hi
      cases b
      · simpa using hb
      · simp [track, hi] at h1

/-! ## Running lists of operations -/

theorem run_append_running (DEBUG : Bool) (xs ys : List Op) :
    ∀ p q : Proc, run DEBUG p xs = Run.running q →
      run DEBUG p (xs ++ ys) = run DEBUG q ys := by
  induction xs with
  | nil => intro p q h; simp only [run_nil] at h; cases h; rfl
  | cons op xs ih =>
    intro p q h
    cases hs : step DEBUG p op with
    | running r =>
      rw [run_cons_running DEBUG p r op xs hs] at h
      rw [List.cons_append, run_cons_running DEBUG p r op (xs ++ ys) hs]
      exact ih r q h
    | exited w => rw [run_cons_exited DEBUG p w op xs hs] at h; cases h
    | invalid r => rw [run_cons_invalid DEBUG p r op xs hs] at h; cases h

theorem run_append_split (DEBUG : Bool) (xs ys : List Op) :
    ∀ p r : Proc, run DEBUG p (xs ++ ys) = Run.running r →
      ∃ q, run DEBUG p xs = Run.running q ∧ run DEBUG q ys = Run.running r := by
  induction xs with
  | nil => intro p r h; exact ⟨p, rfl, by simpa using h⟩
  | cons op xs ih =>
    intro p r h
    rw [List.cons_append] at h
    cases hs : step DEBUG p op with
    | running q1 =>
      rw [run_cons_running DEBUG p q1 op (xs ++ ys) hs] at h
      obtain ⟨q, h1, h2⟩ := ih q1 r h
      exact ⟨q, by rw [run_cons_running DEBUG p q1 op xs hs]; exact h1, h2⟩
    | exited w => rw [run_cons_exited DEBUG p w op (xs ++ ys) hs] at h; cases h
    | invalid q1 => rw [run_cons_invalid DEBUG p q1 op (xs ++ ys) hs] at h; cases h

/-- When a program returns from all its operations, so does each of its
initial segments. -/
theorem run_take_running (DEBUG : Bool) (ops : List Op) (p r : Proc) (k : Nat)
    (h : run DEBUG p ops = Run.running r) :
    ∃ q, run DEBUG p (ops.take k) = Run.running q := by
  rw [← List.take_append_drop k ops] at h
  obtain ⟨q, h1, _⟩ := run_append_split DEBUG _ _ p r h
  exact ⟨q, h1⟩

/-- While the flag is set, constructions return without calling anything. -/
theorem run_constructs_active (DEBUG : Bool) (cs : List Op) :
    ∀ p : Proc, p.world.rsmiIsActive ≠ 0 → (∀ op ∈ cs, op.isConstruct = true) →
      ∃ q, run DEBUG p cs = Run.running q ∧
        q.live.length = p.live.length + cs.length ∧
        q.world.calls = p.world.calls ∧
        q.world.rsmiIsActive = p.world.rsmiIsActive := by
  induction cs with
  | nil => intro p _ _; exact ⟨p, rfl, by simp, rfl, rfl⟩
  | cons op cs ih =>
    intro p ha h
    have hop := h op (List.mem_cons_self _ _)
    have hrest : ∀ o ∈ cs, o.isConstruct = true :=
      fun o ho => h o (List.mem_cons_of_mem _ ho)
    cases op with
    | destroy i rsmi => simp [Op.isConstruct] at hop
    | construct rsmi storage =>
      rcases step_construct_cases DEBUG p rsmi storage with
        ⟨_, e⟩ | ⟨h0, _⟩ | ⟨h0, _⟩ | ⟨h0, _⟩
      · obtain ⟨q, hq, hlen, hcalls, hact⟩ :=
          ih ⟨{ p.world with activeSmiInstances := toInt32 (p.world.activeSmiInstances + 1) },
            p.live ++ [⟨storage % 2 ^ 32⟩]⟩ ha hrest
        refine ⟨q, ?_, ?_, hcalls, hact⟩
        · rw [run_cons_running DEBUG p _ _ cs e]; exact hq
        · simp only [hlen, List.length_append, List.length_cons, List.length_nil]; omega
      · exact absurd h0 ha
      · exact absurd h0 ha
      · exact absurd h0 ha

/-- While the flag is clear, destructions of live handles return without
calling anything. -/
theorem run_destroys_inactive (DEBUG : Bool) (ds : List Op) :
    ∀ p : Proc, p.world.rsmiIsActive = 0 → destroysLive p.live.length ds →
      ∃ q, run DEBUG p ds = Run.running q ∧
        q.live.length = p.live.length - ds.length ∧
        q.world.calls = p.world.calls ∧
        q.world.rsmiIsActive = 0 := by
  induction ds with
  | nil => intro p ha _; exact ⟨p, rfl, by simp, rfl, ha⟩
  | cons op ds ih =>
    intro p ha hl
    cases op with
    | construct rsmi storage => simp [destroysLive] at hl
    | destroy i rsmi =>
      simp only [destroysLive] at hl
      obtain ⟨hi, hl⟩ := hl
      have hl1 : destroysLive (p.live.eraseIdx i).length ds := by
        simpa [List.length_eraseIdx, hi] using hl
      rcases step_destroy_cases DEBUG p i rsmi with
        ⟨hle, _⟩ | ⟨_, _, e⟩ | ⟨_, h1, _⟩ | ⟨_, h1, _⟩
      · omega
      · obtain ⟨q, hq, hlen, hcalls, hact⟩ :=
          ih ⟨{ p.world with activeSmiInstances := toInt32 (p.world.activeSmiInstances - 1) },
            p.live.eraseIdx i⟩ ha hl1
        refine ⟨q, ?_, ?_, hcalls, hact⟩
        · rw [run_cons_running DEBUG p _ _ ds e]; exact hq
        · simp only [hlen, List.length_eraseIdx, hi, if_true, List.length_cons]; omega
      · exact absurd ha h1
      · exact absurd ha h1

/-- Constructions whose checks pass all return, each adding one live handle. -/
theorem run_constructs_all (DEBUG : Bool) (cs : List Op) :
    ∀ p : Proc, (∀ op ∈ cs, op.isConstruct = true) → (∀ op ∈ cs, op.safe DEBUG) →
      ∃ q, run DEBUG p cs = Run.running q ∧ q.live.length = p.live.length + cs.length := by
  induction cs with
  | nil => intro p _ _; exact ⟨p, rfl, by simp⟩
  | cons op cs ih =>
    intro p h hs
    have hop := h op (List.mem_cons_self _ _)
    have hsafe := hs op (List.mem_cons_self _ _)
    have hrest : ∀ o ∈ cs, o.isConstruct = true :=
      fun o ho => h o (List.mem_cons_of_mem _ ho)
    have hsrest : ∀ o ∈ cs, o.safe DEBUG := fun o ho => hs o (List.mem_cons_of_mem _ ho)
    cases op with
    | destroy i rsmi => simp [Op.isConstruct] at hop
    | construct rsmi storage =>
      rcases step_construct_cases DEBUG p rsmi storage with
        ⟨_, e⟩ | ⟨_, e⟩ | ⟨_, hd, hn, _⟩ | ⟨_, hd, hn, _⟩
      · obtain ⟨q, hq, hlen⟩ :=
          ih ⟨{ p.world with activeSmiInstances := toInt32 (p.world.activeSmiInstances + 1) },
            p.live ++ [⟨storage % 2 ^ 32⟩]⟩ hrest hsrest
        refine ⟨q, ?_, ?_⟩
        · rw [run_cons_running DEBUG p _ _ cs e]; exact hq
        · simp only [hlen, List.length_append, List.length_cons, List.length_nil]; omega
      · obtain ⟨q, hq, hlen⟩ :=
          ih ⟨⟨1, toInt32 (p.world.activeSmiInstances + 1),
              p.world.calls ++ [Call.rsmi_init 0, Call.rsmi_num_monitor_devices]⟩,
            p.live ++ [⟨rsmi.rsmi_num_monitor_devices.2 % 2 ^ 32⟩]⟩ hrest hsrest
        refine ⟨q, ?_, ?_⟩
        · rw [run_cons_running DEBUG p _ _ cs e]; exact hq
        · simp only [hlen, List.length_append, List.length_cons, List.length_nil]; omega
      · rcases hsafe with hf | hp
        · rw [hf] at hd; cases hd
        · exact absurd hp hn
      · rcases hsafe with hf | hp
        · rw [hf] at hd; cases hd
        · exact absurd hp hn

/-- A program has at most as many live handles as it started with plus the
constructions it ran. -/
theorem run_live_le (DEBUG : Bool) (ops : List Op) :
    ∀ p q : Proc, run DEBUG p ops = Run.running q →
      q.live.length ≤ p.live.length + ops.countP Op.isConstruct := by
  induction ops with
  | nil => intro p q h; simp only [run_nil] at h; cases h; simp
  | cons op ops ih =>
    intro p q h
    cases hs : step DEBUG p op with
    | exited w => rw [run_cons_exited DEBUG p w op ops hs] at h; cases h
    | invalid r => rw [run_cons_invalid DEBUG p r op ops hs] at h; cases h
    | running r =>
      rw [run_cons_running DEBUG p r op ops hs] at h
      have h1 := ih r q h
      cases op with
      | construct rsmi storage =>
        have hr : r.live.length = p.live.length + 1 := by
          rcases step_construct_cases DEBUG p rsmi storage with
            ⟨_, e⟩ | ⟨_, e⟩ | ⟨_, _, _, e⟩ | ⟨_, _, _, e⟩ <;>
            (rw [e] at hs; cases hs) <;> simp
        rw [List.countP_cons_of_pos _ _ (by rfl)]
        omega
      | destroy i rsmi =>
        have hr : r.live.length ≤ p.live.length := by
          rcases step_destroy_cases DEBUG p i rsmi with
            ⟨_, e⟩ | ⟨_, _, e⟩ | ⟨_, _, e⟩ | ⟨_, _, _, _, e⟩ <;>
            (rw [e] at hs; cases hs) <;>
            (simp only [List.length_eraseIdx]; split_ifs; all_goals omega)
        rw [List.countP_cons_of_neg _ _ (by simp [Op.isConstruct])]
        omega

theorem destroysLive_no_construct (ds : List Op) :
    ∀ n : Nat, destroysLive n ds → ds.countP Op.isConstruct = 0 := by
  induction ds with
  | nil => intro _ _; rfl
  | cons op ds ih =>
    intro n h
    cases op with
    | construct rsmi storage => simp [destroysLive] at h
    | destroy i rsmi =>
      simp only [destroysLive] at h
      rw [List.countP_cons_of_neg _ _ (by simp [Op.isConstruct])]
      exact ih (n - 1) h.2

theorem destroysLive_replicate (rsmi : Rsmi) :
    ∀ n : Nat, destroysLive n (List.replicate n (Op.destroy 0 rsmi)) := by
  intro n
  induction n with
  | zero => simp [destroysLive]
  | succ n ih =>
    rw [List.replicate_succ]
    simp only [destroysLive]
    exact ⟨Nat.succ_pos n, by simpa using ih⟩

/-- After `n` constructions in a row from the initial state (checks passing),
`activeSmiInstances` is `n` as a 32-bit `int`. -/
theorem count_after_constructions (DEBUG : Bool) (n : Nat) (c : Op) (ds : List Op)
    (hc : c.isConstruct = true) (hs : c.safe DEBUG) :
    ∃ q : Proc,
      run DEBUG Proc.initial ((List.replicate n c ++ ds).take n) = Run.running q ∧
        q.world.activeSmiInstances = toInt32 (n : Int) := by
  rw [List.take_left' (List.length_replicate n c)]
  obtain ⟨q, hq, hlen⟩ := run_constructs_all DEBUG (List.replicate n c) Proc.initial
    (fun op hop => by rw [List.eq_of_mem_replicate hop]; exact hc)
    (fun op hop => by rw [List.eq_of_mem_replicate hop]; exact hs)
  refine ⟨q, hq, ?_⟩
  have hinv := run_running_inv DEBUG _ Proc.initial q inv_initial hq
  rw [hinv.2, hlen, List.length_replicate]
  simp [Proc.initial]

/-! ## Lifecycle of the subsystem -/

/-- C10. For every list of constructions and destructions run from the
initial state (with or without `DEBUG`, whatever the library answers, up to
the point where the program stops), the `rsmi_init` / `rsmi_shut_down` calls
of the trace strictly alternate beginning with `rsmi_init`; at every point of
the trace the number of shutdowns is at most the number of inits; a call of
`rsmi_shut_down` comes when there is one more init than shutdowns before it
(the subsystem is active), and a call of `rsmi_init` when there are as many
(the subsystem is inactive). -/
theorem lifecycle_calls_alternate (DEBUG : Bool) (ops : List Op) :
    alternates false (lifecycle (run DEBUG Proc.initial ops).world.calls) = true ∧
      ∀ k : Nat,
        shutDowns ((run DEBUG Proc.initial ops).world.calls.take k) ≤
            inits ((run DEBUG Proc.initial ops).world.calls.take k) ∧
          ∀ c : Call, (run DEBUG Proc.initial ops).world.calls[k]? = some c →
            (c.isShutDown = true →
              inits ((run DEBUG Proc.initial ops).world.calls.take k) =
                shutDowns ((run DEBUG Proc.initial ops).world.calls.take k) + 1) ∧
            (c.isInit = true →
              inits ((run DEBUG Proc.initial ops).world.calls.take k) =
                shutDowns ((run DEBUG Proc.initial ops).world.calls.take k)) := by
  have h := run_track DEBUG ops Proc.initial inv_initial
  refine ⟨?_, ?_⟩
  · cases ht : track false (run DEBUG Proc.initial ops).world.calls with
    | none => rw [ht] at h; simp at h
    | some b => exact alternates_of_track _ false b ht
  · intro k
    refine ⟨?_, ?_⟩
    · have hk := track_take false _ k h
      cases ht : track false ((run DEBUG Proc.initial ops).world.calls.take k) with
      | none => rw [ht] at hk; simp at hk
      | some b =>
        have hb := balance_of_track _ false b ht
        cases b <;> simp at hb <;> omega
    · intro c hc
      exact track_at _ k c h hc

/-- C2, amended. For every `N` with `1 ≤ N ≤ 2^31 - 1` (`INT_MAX`): run from
the initial state `N` constructions followed by `N` destructions, each of a
handle live at that moment (in any order), with checks that cannot end the
process (`DEBUG` off, or every status `RSMI_STATUS_SUCCESS`).  Then all `2 N`
operations return, the trace contains exactly one `rsmi_init` and exactly one
`rsmi_shut_down`, no handle is left, and after every step of the sequence
`activeSmiInstances ≥ 0`. -/
theorem construct_n_destroy_n (DEBUG : Bool) (N : Nat) (cs ds : List Op)
    (hN : 1 ≤ N) (hmax : N ≤ 2147483647)
    (hcs : cs.length = N) (hcons : ∀ op ∈ cs, op.isConstruct = true)
    (hds : ds.length = N) (hlive : destroysLive N ds)
    (hchk : DEBUG = false ∨ ∀ op ∈ cs ++ ds, op.checksPass) :
    ∃ p : Proc, run DEBUG Proc.initial (cs ++ ds) = Run.running p ∧
      inits p.world.calls = 1 ∧ shutDowns p.world.calls = 1 ∧ p.live = [] ∧
      ∀ k : Nat, ∃ q : Proc,
        run DEBUG Proc.initial ((cs ++ ds).take k) = Run.running q ∧
          0 ≤ q.world.activeSmiInstances := by
  have hsafe : ∀ op ∈ cs ++ ds, op.safe DEBUG := by
    intro op hop
    rcases hchk with h | h
    · exact Or.inl h
    · exact Or.inr (h op hop)
  -- the whole run
  have hrun : ∃ p : Proc, run DEBUG Proc.initial (cs ++ ds) = Run.running p ∧
      inits p.world.calls = 1 ∧ shutDowns p.world.calls = 1 ∧ p.live = [] := by
    cases cs with
    | nil => simp at hcs; omega
    | cons c cs1 =>
      cases ds with
      | nil => simp at hds; omega
      | cons d ds1 =>
        have hc := hcons c (List.mem_cons_self _ _)
        have hcs1 : ∀ o ∈ cs1, o.isConstruct = true :=
          fun o ho => hcons o (List.mem_cons_of_mem _ ho)
        have hcsafe : c.safe DEBUG := hsafe c (by simp)
        have hdsafe : d.safe DEBUG := hsafe d (by simp)
        cases c with
        | destroy i rsmi => simp [Op.isConstruct] at hc
        | construct rsmi storage =>
          cases d with
          | construct rsmi1 storage1 => simp [destroysLive] at hlive
          | destroy i rsmi1 =>
            simp only [destroysLive] at hlive
            obtain ⟨hi, hlive1⟩ := hlive
            -- first construction: activates
            rcases step_construct_cases DEBUG Proc.initial rsmi storage with
              ⟨ha, _⟩ | ⟨_, e1⟩ | ⟨_, hd, hn, _⟩ | ⟨_, hd, hn, _⟩
            · exact absurd rfl ha
            · -- remaining constructions: nothing called
              obtain ⟨q1, hq1, hlen1, hcalls1, hact1⟩ :=
                run_constructs_active DEBUG cs1
                  ⟨⟨1, toInt32 (Proc.initial.world.activeSmiInstances + 1),
                      Proc.initial.world.calls ++
                        [Call.rsmi_init 0, Call.rsmi_num_monitor_devices]⟩,
                    Proc.initial.live ++
                      [⟨rsmi.rsmi_num_monitor_devices.2 % 2 ^ 32⟩]⟩
                  (by simp) hcs1
              have hrun1 : run DEBUG Proc.initial (Op.construct rsmi storage :: cs1) =
                  Run.running q1 := by
                rw [run_cons_running DEBUG _ _ _ cs1 e1]; exact hq1
              have hq1len : q1.live.length = N := by
                rw [hlen1]
                simp only [List.length_cons] at hcs
                simp [Proc.initial]; omega
              -- first destruction: shuts down
              have hi1 : i < q1.live.length := by omega
              have hact1' : q1.world.rsmiIsActive ≠ 0 := by rw [hact1]; simp
              rcases step_destroy_cases DEBUG q1 i rsmi1 with
                ⟨hle, _⟩ | ⟨_, h0, _⟩ | ⟨_, _, e2⟩ | ⟨_, _, hd, hn, _⟩
              · omega
              · exact absurd h0 hact1'
              · -- remaining destructions: nothing called
                have hl2 : destroysLive (q1.live.eraseIdx i).length ds1 := by
                  simpa [List.length_eraseIdx, hq1len, hi] using hlive1
                obtain ⟨q2, hq2, hlen2, hcalls2, _⟩ :=
                  run_destroys_inactive DEBUG ds1
                    ⟨⟨0, toInt32 (q1.world.activeSmiInstances - 1),
                        q1.world.calls ++ [Call.rsmi_shut_down]⟩,
                      q1.live.eraseIdx i⟩ rfl hl2
                refine ⟨q2, ?_, ?_, ?_, ?_⟩
                · rw [run_append_running DEBUG _ _ _ _ hrun1,
                    run_cons_running DEBUG _ _ _ ds1 e2]
                  exact hq2
                · rw [hcalls2]
                  simp [hcalls1, Proc.initial, World.initial, inits, Call.isInit]
                · rw [hcalls2]
                  simp [hcalls1, Proc.initial, World.initial, shutDowns, Call.isShutDown]
                · apply List.eq_nil_of_length_eq_zero
                  rw [hlen2]
                  simp only [List.length_eraseIdx, hq1len, hi, if_true]
                  simp only [List.length_cons] at hds
                  omega
              · rcases hdsafe with hf | hp
                · rw [hf] at hd; cases hd
                · exact absurd hp hn
            · rcases hcsafe with hf | hp
              · rw [hf] at hd; cases hd
              · exact absurd hp hn
            · rcases hcsafe with hf | hp
              · rw [hf] at hd; cases hd
              · exact absurd hp hn
  obtain ⟨p, hp, hin, hsh, hnil⟩ := hrun
  refine ⟨p, hp, hin, hsh, hnil, ?_⟩
  intro k
  obtain ⟨q, hq⟩ := run_take_running DEBUG (cs ++ ds) Proc.initial p k hp
  refine ⟨q, hq, ?_⟩
  have hinv := run_running_inv DEBUG _ Proc.initial q inv_initial hq
  have hlen := run_live_le DEBUG _ Proc.initial q hq
  have hsub : ((cs ++ ds).take k).countP Op.isConstruct ≤
      (cs ++ ds).countP Op.isConstruct :=
    List.Sublist.countP_le _ (List.take_sublist k (cs ++ ds))
  have hcount : (cs ++ ds).countP Op.isConstruct ≤ N := by
    rw [List.countP_append, destroysLive_no_construct ds N hlive, ← hcs]
    exact List.countP_le_length _
  have hq0 : q.live.length ≤ N := by
    have h0 : Proc.initial.live.length = 0 := rfl
    omega
  rw [hinv.2]
  unfold toInt32
  omega

theorem construct_n_destroy_n_witness :
    ∃ p : Proc, run true Proc.initial (constructAB ++ destroyBA) = Run.running p ∧
      inits p.world.calls = 1 ∧ shutDowns p.world.calls = 1 ∧ p.live = [] ∧
      ∀ k : Nat, ∃ q : Proc,
        run true Proc.initial ((constructAB ++ destroyBA).take k) = Run.running q ∧
          0 ≤ q.world.activeSmiInstances :=
  construct_n_destroy_n true 2 constructAB destroyBA (by decide) (by decide) rfl
    (by simp [constructAB, Op.isConstruct]) rfl
    (by decide) (Or.inr (by decide))

/-- C2 as stated fails at `N = 2^31 = 2147483648`. Take `2^31` constructions
followed by `2^31` destructions of the first live handle, `DEBUG` off, every
library call succeeding: the premises of the claim hold, the first `2^31`
steps all return, and after step `2^31` the 32-bit counter
`activeSmiInstances` holds `-2147483648`, which is negative. -/
theorem count_negative_after_int_max_constructions :
    (1 ≤ 2147483648 ∧
      (List.replicate 2147483648 (Op.construct (Rsmi.healthy 4) 0)).length = 2147483648 ∧
      (∀ op ∈ List.replicate 2147483648 (Op.construct (Rsmi.healthy 4) 0),
        op.isConstruct = true) ∧
      (List.replicate 2147483648 (Op.destroy 0 (Rsmi.healthy 4))).length = 2147483648 ∧
      destroysLive 2147483648 (List.replicate 2147483648 (Op.destroy 0 (Rsmi.healthy 4)))) ∧
    ∃ q : Proc,
      run false Proc.initial
          ((List.replicate 2147483648 (Op.construct (Rsmi.healthy 4) 0) ++
            List.replicate 2147483648 (Op.destroy 0 (Rsmi.healthy 4))).take 2147483648) =
        Run.running q ∧
      q.world.activeSmiInstances = -2147483648 ∧ ¬ (0 ≤ q.world.activeSmiInstances) := by
  refine ⟨⟨by decide, List.length_replicate _ _, ?_, List.length_replicate _ _,
    destroysLive_replicate _ _⟩, ?_⟩
  · intro op hop
    rw [List.eq_of_mem_replicate hop]
    rfl
  · obtain ⟨q, hq, hcount⟩ := count_after_constructions false 2147483648
      (Op.construct (Rsmi.healthy 4) 0)
      (List.replicate 2147483648 (Op.destroy 0 (Rsmi.healthy 4))) rfl (Or.inl rfl)
    have hval : toInt32 ((2147483648 : Nat) : Int) = -2147483648 := by
      unfold toInt32
      norm_num
    rw [hval] at hcount
    refine ⟨q, hq, hcount, ?_⟩
    rw [hcount]
    decide

/-! ## The reference count is not consulted -/

theorem run_constructAB : run false Proc.initial constructAB = Run.running procAB := by
  rfl

/-- C1 (fails on the code). Construct `A`, construct `B`, destroy `A`: all
three operations return, one handle is live and `activeSmiInstances = 1`, but
`rsmiIsActive = 0`; so "`rsmiIsActive` is true iff `activeSmiInstances > 0`"
does not hold in this reachable state.  The destructor tests `rsmiIsActive`,
not the count it has just decremented. -/
theorem flag_clear_with_live_handle :
    ∃ p : Proc,
      run false Proc.initial (constructAB ++ [Op.destroy 0 (Rsmi.healthy 4)]) =
        Run.running p ∧
      p.live.length = 1 ∧ p.world.activeSmiInstances = 1 ∧ p.world.rsmiIsActive = 0 ∧
      ¬ (p.world.rsmiIsActive ≠ 0 ↔ 0 < p.world.activeSmiInstances) :=
  ⟨{ world :=
        { rsmiIsActive := 0, activeSmiInstances := 1,
          calls := [Call.rsmi_init 0, Call.rsmi_num_monitor_devices, Call.rsmi_shut_down] },
     live := [{ numberOfDevices := 7 }] },
    rfl, rfl, rfl, rfl, by simp⟩

/-- C3 (fails on the code). Constructing `A` and `B` leads to the state
`procAB` (count 2, subsystem active).  Destroying `A` there returns with
`activeSmiInstances = 1`, and although the decremented count is not zero it
has called `rsmi_shut_down` and cleared `rsmiIsActive`, with `B` still live. -/
theorem destroy_shuts_down_with_handle_live :
    run false Proc.initial constructAB = Run.running procAB ∧
      step false procAB (Op.destroy 0 (Rsmi.healthy 4)) =
        Run.running
          { world :=
              { rsmiIsActive := 0
                activeSmiInstances := 1
                calls := procAB.world.calls ++ [Call.rsmi_shut_down] }
            live := [{ numberOfDevices := 7 }] } :=
  ⟨rfl, rfl⟩

/-- C4 (fails on the code). The library reports 4 devices.  The first
construction activates the subsystem and its handle stores 4.  The second
construction, in bytes holding the word 7, calls nothing (the trace is the
same before and after), and the `numberOfDevices` of its handle is 7, not 4:
the constructor writes the member only inside the activation branch. -/
theorem second_handle_count_not_written :
    run false Proc.initial [Op.construct (Rsmi.healthy 4) 0] =
        Run.running
          { world :=
              { rsmiIsActive := 1
                activeSmiInstances := 1
                calls := [Call.rsmi_init 0, Call.rsmi_num_monitor_devices] }
            live := [{ numberOfDevices := 4 }] } ∧
      Smi.ctor false (Rsmi.healthy 4) 7
          { rsmiIsActive := 1, activeSmiInstances := 1,
            calls := [Call.rsmi_init 0, Call.rsmi_num_monitor_devices] } =
        Except.ok
          ({ numberOfDevices := 7 },
            { rsmiIsActive := 1, activeSmiInstances := 2,
              calls := [Call.rsmi_init 0, Call.rsmi_num_monitor_devices] }) :=
  ⟨rfl, rfl⟩

/-! ## `setCpuAffinity` -/

/-- C5, amended. For every handle and every `id` with
`0 ≤ id < numberOfDevices`, when the check of the query cannot end the process
(`DEBUG` off, or status `RSMI_STATUS_SUCCESS`) and the reported node is a
`uint32_t`: `setCpuAffinity(id)` returns, and what it did is exactly one
`rsmi_topo_numa_affinity_get` for `id` followed by one `numa_run_on_node`
whose `int` argument is the reported word converted to `int`; nothing is
written to `std::cerr` and the statics are untouched.  The argument is exactly
the reported node when that node is below `2^31`; a word `≥ 2^31` arrives as
the word minus `2^32`. -/
theorem setCpuAffinity_in_range (DEBUG : Bool) (rsmi : Rsmi) (this : Smi) (id : Int)
    (w : World)
    (hlo : 0 ≤ id) (hhi : id < (this.numberOfDevices : Int))
    (hchk : DEBUG = false ∨
      (rsmi.rsmi_topo_numa_affinity_get id).1 = rsmi_status_t.RSMI_STATUS_SUCCESS)
    (hnode : (rsmi.rsmi_topo_numa_affinity_get id).2 < 2 ^ 32) :
    Smi.setCpuAffinity DEBUG rsmi this id w =
        Except.ok { w with calls := w.calls ++
          [Call.rsmi_topo_numa_affinity_get id,
            Call.numa_run_on_node (toInt32 (rsmi.rsmi_topo_numa_affinity_get id).2)] } ∧
      ((rsmi.rsmi_topo_numa_affinity_get id).2 < 2 ^ 31 →
        toInt32 (rsmi.rsmi_topo_numa_affinity_get id).2 =
          ((rsmi.rsmi_topo_numa_affinity_get id).2 : Int)) ∧
      (2 ^ 31 ≤ (rsmi.rsmi_topo_numa_affinity_get id).2 →
        toInt32 (rsmi.rsmi_topo_numa_affinity_get id).2 =
          ((rsmi.rsmi_topo_numa_affinity_get id).2 : Int) - 2 ^ 32) := by
  have hcmp : ¬ (id < 0 ∨ this.numberOfDevices ≤ toUInt32 id) := by
    unfold toUInt32
    omega
  have hword : (rsmi.rsmi_topo_numa_affinity_get id).2 % 2 ^ 32 =
      (rsmi.rsmi_topo_numa_affinity_get id).2 := Nat.mod_eq_of_lt hnode
  refine ⟨?_, ?_, ?_⟩
  · simp only [Smi.setCpuAffinity, hcmp, if_false, rsmiCheck_ok _ _ _ hchk, World.emit, hword,
      List.append_assoc, List.singleton_append]
  · intro h
    unfold toInt32
    omega
  · intro h
    unfold toInt32
    omega

theorem setCpuAffinity_in_range_witness :
    Smi.setCpuAffinity true (Rsmi.healthy 4) { numberOfDevices := 4 } 3 procAB.world =
        Except.ok { procAB.world with calls := procAB.world.calls ++
          [Call.rsmi_topo_numa_affinity_get 3,
            Call.numa_run_on_node
              (toInt32 ((Rsmi.healthy 4).rsmi_topo_numa_affinity_get 3).2)] } ∧
      (((Rsmi.healthy 4).rsmi_topo_numa_affinity_get 3).2 < 2 ^ 31 →
        toInt32 ((Rsmi.healthy 4).rsmi_topo_numa_affinity_get 3).2 =
          (((Rsmi.healthy 4).rsmi_topo_numa_affinity_get 3).2 : Int)) ∧
      (2 ^ 31 ≤ ((Rsmi.healthy 4).rsmi_topo_numa_affinity_get 3).2 →
        toInt32 ((Rsmi.healthy 4).rsmi_topo_numa_affinity_get 3).2 =
          (((Rsmi.healthy 4).rsmi_topo_numa_affinity_get 3).2 : Int) - 2 ^ 32) :=
  setCpuAffinity_in_range true (Rsmi.healthy 4) { numberOfDevices := 4 } 3 procAB.world
    (by decide) (by decide) (Or.inr rfl) (by decide)

/-- C5 as stated fails when the query reports the word `4294967295`: with a
handle of 4 devices and `id = 0` (in range), the query is made once and
`numa_run_on_node` is called once, but with `-1`, not with the reported node
`4294967295`. -/
theorem bind_argument_differs_from_reported_word :
    (Rsmi.allBits.rsmi_topo_numa_affinity_get 0).2 = 4294967295 ∧
      Smi.setCpuAffinity false Rsmi.allBits { numberOfDevices := 4 } 0 World.initial =
        Except.ok
          { rsmiIsActive := 0, activeSmiInstances := 0,
            calls := [Call.rsmi_topo_numa_affinity_get 0, Call.numa_run_on_node (-1)] } ∧
      Call.numa_run_on_node (-1) ≠ Call.numa_run_on_node 4294967295 :=
  ⟨rfl, rfl, by decide⟩

/-- C6. For every handle and every `int id` (`-2^31 ≤ id < 2^31`) with
`id < 0` or `id ≥ numberOfDevices`: `setCpuAffinity(id)` returns, and all it
did is write the out-of-range line to `std::cerr`: no topology query, no
`numa_run_on_node`, no `exit`, and the statics are untouched.  This holds with
and without `DEBUG` and whatever the library would answer. -/
theorem setCpuAffinity_out_of_range (DEBUG : Bool) (rsmi : Rsmi) (this : Smi) (id : Int)
    (w : World)
    (hint : -2 ^ 31 ≤ id ∧ id < 2 ^ 31)
    (hout : id < 0 ∨ (this.numberOfDevices : Int) ≤ id) :
    Smi.setCpuAffinity DEBUG rsmi this id w =
      Except.ok { w with calls := w.calls ++ [Call.cerr Diagnostic.idOutOfRange] } := by
  have hcmp : id < 0 ∨ this.numberOfDevices ≤ toUInt32 id := by
    unfold toUInt32
    omega
  simp [Smi.setCpuAffinity, hcmp, World.emit]

theorem setCpuAffinity_out_of_range_witness :
    Smi.setCpuAffinity true Rsmi.broken { numberOfDevices := 4 } (-1) procAB.world =
        Except.ok { procAB.world with calls := procAB.world.calls ++
          [Call.cerr Diagnostic.idOutOfRange] } ∧
      Smi.setCpuAffinity true Rsmi.broken { numberOfDevices := 4 } 4 procAB.world =
        Except.ok { procAB.world with calls := procAB.world.calls ++
          [Call.cerr Diagnostic.idOutOfRange] } :=
  ⟨setCpuAffinity_out_of_range true Rsmi.broken { numberOfDevices := 4 } (-1) procAB.world
      (by decide) (by decide),
    setCpuAffinity_out_of_range true Rsmi.broken { numberOfDevices := 4 } 4 procAB.world
      (by decide) (by decide)⟩

/-! ## Device-side helpers -/

/-- C7. Whatever the counter holds, `__ownClock` returns its low 32 bits:
the value modulo `2^32`, which is an unsigned 32-bit number. -/
theorem ownClock_low_32_bits (ctx : DeviceContext) :
    __ownClock ctx = ctx.s_memtime % 2 ^ 32 ∧ __ownClock ctx < 2 ^ 32 := by
  simp only [__ownClock]
  omega

/-- C8. For two 64-bit readings `t1 ≤ t2` with the same upper 32 bits,
`__ownClock` at `t1` is at most `__ownClock` at `t2`. -/
theorem ownClock_monotone (c1 c2 : DeviceContext)
    (hle : c1.s_memtime ≤ c2.s_memtime)
    (hupper : c1.s_memtime / 2 ^ 32 = c2.s_memtime / 2 ^ 32) :
    __ownClock c1 ≤ __ownClock c2 := by
  simp only [__ownClock]
  omega

theorem ownClock_monotone_witness :
    __ownClock { s_memtime := 2 ^ 32 + 5 } ≤ __ownClock { s_memtime := 2 ^ 32 + 9 } :=
  ownClock_monotone { s_memtime := 2 ^ 32 + 5 } { s_memtime := 2 ^ 32 + 9 }
    (by decide) (by decide)

/-- C9. `__smId` returns `-1` in every execution context. -/
theorem smId_sentinel (ctx : DeviceContext) : __smId ctx = -1 := rfl

end HipTools
